import Mathlib

/-!
A shallow embedding of the fatih/pool connection pool (Go) and proofs about
its operations.  The repository holds several near-duplicate generations of
the pool; the embedding follows the most evolved one present in the sources:

* `ChannelPool.Get` with wrapper auto-return and the internal `put`
  (the generation whose `Get` defers `newConn`/`wrapConn`);
* `ChannelPool.Close`, `Cap`, `Len` and the public `Put` from channel.go;
* `PoolConn` (conn.go): `Close` routes to `tryClose` when `unusable`,
  otherwise to `put`; `MarkUnusable` sets the flag.

Go side effects are made explicit: the model threads an `Effects` record
counting factory invocations and recording every raw connection whose
`Close()` the pool called.  The factory is modelled as a function from the
invocation index to a result, passed explicitly to the operations that the
Go code lets read it from the struct (`Close` also nils the stored factory,
which is immaterial here because every operation checks `conns` first).
-/

namespace PoolSpec

/-- A raw (non-nil) network connection, identified by a numeric id.
Go's nil `net.Conn` is represented by `Option Conn = none` at use sites. -/
structure Conn where
  id : Nat
deriving DecidableEq, Repr

/-- Opaque error values a factory may return (Go: arbitrary `error`). -/
abbrev FErr := Nat

/-- The connection factory: result of the n-th invocation (0-based).
Go: `type Factory func() (net.Conn, error)`. -/
abbrev Factory := Nat → Except FErr Conn

/-- The distinguishable error values the pool code produces.
`poolClosed` is ErrClosed, `poolFull` is ErrFull, `nilConnection` is the
"connection is nil. rejecting" error, `invalidCapacity` the
"invalid capacity settings" error, `fillFailed e` the constructor error
"factory is not able to fill the pool: e", and `fromFactory e` marks an
error value `e` handed back verbatim from the factory by `Get`. -/
inductive PoolError where
  | poolClosed
  | poolFull
  | nilConnection
  | invalidCapacity
  | fillFailed (e : FErr)
  | fromFactory (e : FErr)
deriving DecidableEq, Repr

/-- Observable side effects of a run: how many times the factory has been
invoked, and which raw connections have had their `Close()` called, in
order. -/
structure Effects where
  calls : Nat
  closedConns : List Conn
deriving DecidableEq, Repr

/-- The empty effect log. -/
def Effects.init : Effects := { calls := 0, closedConns := [] }

/-- A Go buffered channel of connections: the fixed capacity given to
`make(chan net.Conn, maxCap)` plus the current contents (FIFO). -/
structure Buf where
  cap : Nat
  buf : List Conn
deriving DecidableEq, Repr

/-- The pool struct.  `conns = none` models the nil channel installed by
`Close` (and observed through `getConns`). -/
structure ChannelPool where
  conns : Option Buf
deriving DecidableEq, Repr

/-- Mutex-guarded snapshot of the channel field (Go `getConns`). -/
def ChannelPool.getConns (c : ChannelPool) : Option Buf :=
  c.conns

/-- The wrapper handed out by `Get` (conn.go `PoolConn`): the raw
connection plus the `unusable` flag (zero value false).  The Go back
pointer to the owning pool is passed explicitly to `PoolConn.Close`. -/
structure PoolConn where
  Conn : Conn
  unusable : Bool
deriving DecidableEq, Repr

/-- conn.go `wrapConn` / `newConn`: wrap a raw connection; `unusable`
starts at its zero value, false. -/
def wrapConn (conn : Conn) : PoolConn :=
  { Conn := conn, unusable := false }

/-- `ChannelPool.Get`: nil channel fails with ErrClosed; otherwise a
non-blocking receive pops the oldest idle connection, falling back to the
factory; a successful result is wrapped by the deferred `newConn`.
The Go branch returning ErrClosed on receiving a nil connection from a
concurrently closed channel is unreachable sequentially, because the
buffer only ever holds non-nil connections. -/
def ChannelPool.Get (c : ChannelPool) (factory : Factory) (eff : Effects) :
    Except PoolError PoolConn × ChannelPool × Effects :=
  match c.getConns with
  | none => (.error .poolClosed, c, eff)
  | some b =>
    match b.buf with
    | conn :: rest =>
        (.ok (wrapConn conn), { conns := some { b with buf := rest } }, eff)
    | [] =>
        match factory eff.calls with
        | .ok conn => (.ok (wrapConn conn), c, { eff with calls := eff.calls + 1 })
        | .error e => (.error (.fromFactory e), c, { eff with calls := eff.calls + 1 })

/-- `ChannelPool.put`: reject nil; on a nil channel close the connection
and fail with ErrClosed; otherwise a non-blocking send, closing the
connection and failing with ErrFull when the buffer is at capacity. -/
def ChannelPool.put (c : ChannelPool) (conn : Option Conn) (eff : Effects) :
    Except PoolError Unit × ChannelPool × Effects :=
  match conn with
  | none => (.error .nilConnection, c, eff)
  | some conn =>
    match c.conns with
    | none =>
        (.error .poolClosed, c, { eff with closedConns := eff.closedConns ++ [conn] })
    | some b =>
        if b.buf.length < b.cap then
          (.ok (), { conns := some { b with buf := b.buf ++ [conn] } }, eff)
        else
          (.error .poolFull, c, { eff with closedConns := eff.closedConns ++ [conn] })

/-- channel.go's public `Put` has exactly the body of the internal `put`. -/
def ChannelPool.Put (c : ChannelPool) (conn : Option Conn) (eff : Effects) :
    Except PoolError Unit × ChannelPool × Effects :=
  c.put conn eff

/-- `ChannelPool.Close`: swap the channel (and factory) to nil under the
lock; if the snapshot was non-nil, drain it and close every idle
connection.  Never fails. -/
def ChannelPool.Close (c : ChannelPool) (eff : Effects) : ChannelPool × Effects :=
  match c.conns with
  | none => ({ conns := none }, eff)
  | some b => ({ conns := none }, { eff with closedConns := eff.closedConns ++ b.buf })

/-- `Cap`: `cap(c.getConns())`; Go defines `cap` of a nil channel as 0. -/
def ChannelPool.Cap (c : ChannelPool) : Nat :=
  match c.getConns with
  | none => 0
  | some b => b.cap

/-- `Len`: `len(c.getConns())`; Go defines `len` of a nil channel as 0. -/
def ChannelPool.Len (c : ChannelPool) : Nat :=
  match c.getConns with
  | none => 0
  | some b => b.buf.length

/-- Modelled from the spec: `tryClose` is called by `PoolConn.Close`
(conn.go) but its definition is not under src/.  Per the spec it closes
the raw connection (no-op on nil) and, when the admission limiter is
enabled, releases one slot; it is always safe and reports no error.  For
the limiter-free `ChannelPool` this closes the raw connection. -/
def ChannelPool.tryClose (c : ChannelPool) (conn : Option Conn) (eff : Effects) :
    Except PoolError Unit × ChannelPool × Effects :=
  match conn with
  | none => (.ok (), c, eff)
  | some conn => (.ok (), c, { eff with closedConns := eff.closedConns ++ [conn] })

/-- conn.go `PoolConn.Close`: route to `tryClose` when marked unusable,
otherwise to `put`.  The wrapper itself keeps no record of having been
closed. -/
def PoolConn.Close (p : PoolConn) (c : ChannelPool) (eff : Effects) :
    Except PoolError Unit × ChannelPool × Effects :=
  if p.unusable then c.tryClose (some p.Conn) eff
  else c.put (some p.Conn) eff

/-- conn.go `PoolConn.MarkUnusable`. -/
def PoolConn.MarkUnusable (p : PoolConn) : PoolConn :=
  { p with unusable := true }

/-- The constructor's eager-fill loop: invoke the factory once per
remaining slot, appending each new connection to the buffer (the blocking
send can never block: at most `initialCap` ≤ `maxCap` sends happen); on a
factory error call `Close()` on the partially filled pool and fail with
the wrapping error. -/
def fillPool (factory : Factory) : Nat → ChannelPool → Effects →
    Except PoolError ChannelPool × Effects
  | 0, c, eff => (.ok c, eff)
  | n + 1, c, eff =>
      match factory eff.calls with
      | .ok conn =>
          let c' : ChannelPool :=
            match c.conns with
            | some b => { conns := some { b with buf := b.buf ++ [conn] } }
            | none => c
          fillPool factory n c' { eff with calls := eff.calls + 1 }
      | .error e =>
          let closedPair := c.Close { eff with calls := eff.calls + 1 }
          (.error (.fillFailed e), closedPair.2)

/-- `NewChannelPool` in its most evolved form: validation
`initialCap < 0 || maxCap <= 0 || initialCap > maxCap` (so a zero
`initialCap` is accepted), then eager fill. -/
def NewChannelPool (initialCap maxCap : Int) (factory : Factory) (eff : Effects) :
    Except PoolError ChannelPool × Effects :=
  if initialCap < 0 ∨ maxCap ≤ 0 ∨ initialCap > maxCap then
    (.error .invalidCapacity, eff)
  else
    fillPool factory initialCap.toNat { conns := some { cap := maxCap.toNat, buf := [] } } eff

/-- `NewChannelPool` as written in channel.go, whose validation is
`initialCap <= 0 || maxCap <= 0 || initialCap > maxCap`: it also rejects
`initialCap = 0`. -/
def NewChannelPoolStrict (initialCap maxCap : Int) (factory : Factory) (eff : Effects) :
    Except PoolError ChannelPool × Effects :=
  if initialCap ≤ 0 ∨ maxCap ≤ 0 ∨ initialCap > maxCap then
    (.error .invalidCapacity, eff)
  else
    fillPool factory initialCap.toNat { conns := some { cap := maxCap.toNat, buf := [] } } eff

/-- A factory that always succeeds, producing connection n on call n. -/
def okFactory : Factory := fun n => .ok ⟨n⟩

/-- A factory that always fails with error code 7. -/
def errFactory : Factory := fun _ => .error 7

/-- Claim C1: for every open pool, `Get` with a non-empty idle buffer
immediately returns the popped connection, wrapped, without invoking the
factory; with an empty idle buffer it invokes the factory, handing back
the factory's error verbatim on failure and the wrapped fresh connection
on success; and every wrapper a successful `Get` returns starts with
`unusable = false`, so its subsequent `Close` is routed through `put`. -/
theorem C1_get_semantics (capN : Nat) (buf : List Conn) (factory : Factory)
    (eff : Effects) :
    (∀ conn rest, buf = conn :: rest →
      ChannelPool.Get ⟨some ⟨capN, buf⟩⟩ factory eff
        = (.ok (wrapConn conn), ⟨some ⟨capN, rest⟩⟩, eff))
    ∧ (∀ e, buf = [] → factory eff.calls = .error e →
      ChannelPool.Get ⟨some ⟨capN, buf⟩⟩ factory eff
        = (.error (.fromFactory e), ⟨some ⟨capN, buf⟩⟩,
           { eff with calls := eff.calls + 1 }))
    ∧ (∀ conn, buf = [] → factory eff.calls = .ok conn →
      ChannelPool.Get ⟨some ⟨capN, buf⟩⟩ factory eff
        = (.ok (wrapConn conn), ⟨some ⟨capN, buf⟩⟩,
           { eff with calls := eff.calls + 1 }))
    ∧ (∀ w, (ChannelPool.Get ⟨some ⟨capN, buf⟩⟩ factory eff).1 = .ok w →
      w.unusable = false
      ∧ ∀ c' eff₂, w.Close c' eff₂ = c'.put (some w.Conn) eff₂) := by
  refine ⟨?_, ?_, ?_, ?_⟩
  · rintro conn rest rfl
    rfl
  · rintro e rfl herr
    simp [ChannelPool.Get, ChannelPool.getConns, herr]
  · rintro conn rfl hok
    simp [ChannelPool.Get, ChannelPool.getConns, hok]
  · intro w hw
    have hu : w.unusable = false := by
      rcases buf with _ | ⟨conn, rest⟩
      · rcases hfac : factory eff.calls with e | conn
        · simp [ChannelPool.Get, ChannelPool.getConns, hfac] at hw
        · simp [ChannelPool.Get, ChannelPool.getConns, hfac] at hw
          simp [← hw, wrapConn]
      · simp [ChannelPool.Get, ChannelPool.getConns] at hw
        simp [← hw, wrapConn]
    exact ⟨hu, fun c' eff₂ => by simp [PoolConn.Close, hu]⟩

/-- Witness for C1: a concrete pool of capacity 2 holding connection 5,
plus the empty-buffer cases with a succeeding and a failing factory. -/
theorem C1_witness :
    ChannelPool.Get ⟨some ⟨2, [⟨5⟩]⟩⟩ okFactory Effects.init
      = (.ok (wrapConn ⟨5⟩), ⟨some ⟨2, []⟩⟩, Effects.init)
    ∧ ChannelPool.Get ⟨some ⟨2, []⟩⟩ errFactory Effects.init
      = (.error (.fromFactory 7), ⟨some ⟨2, []⟩⟩, { calls := 1, closedConns := [] })
    ∧ ChannelPool.Get ⟨some ⟨2, []⟩⟩ okFactory Effects.init
      = (.ok (wrapConn ⟨0⟩), ⟨some ⟨2, []⟩⟩, { calls := 1, closedConns := [] })
    ∧ (wrapConn ⟨5⟩).Close ⟨some ⟨2, []⟩⟩ Effects.init
      = ChannelPool.put ⟨some ⟨2, []⟩⟩ (some ⟨5⟩) Effects.init := by
  refine ⟨(C1_get_semantics 2 [⟨5⟩] okFactory Effects.init).1 ⟨5⟩ [] rfl,
    (C1_get_semantics 2 [] errFactory Effects.init).2.1 7 rfl rfl,
    (C1_get_semantics 2 [] okFactory Effects.init).2.2.1 ⟨0⟩ rfl rfl,
    ((C1_get_semantics 2 [⟨5⟩] okFactory Effects.init).2.2.2 (wrapConn ⟨5⟩)
      (by rfl)).2 ⟨some ⟨2, []⟩⟩ Effects.init⟩

/-- Claim C2: `put nil` fails with NilConnection in every state; `put` of
a non-nil connection on a closed pool closes it and fails with
PoolClosed; on an open pool at capacity it closes it and fails with
PoolFull; and on an open pool with room it inserts it and succeeds. -/
theorem C2_put_semantics (c : ChannelPool) (eff : Effects) :
    (c.Put none eff = (.error .nilConnection, c, eff))
    ∧ (∀ conn, c.conns = none →
        c.Put (some conn) eff
          = (.error .poolClosed, c,
             { eff with closedConns := eff.closedConns ++ [conn] }))
    ∧ (∀ conn b, c.conns = some b → ¬ b.buf.length < b.cap →
        c.Put (some conn) eff
          = (.error .poolFull, c,
             { eff with closedConns := eff.closedConns ++ [conn] }))
    ∧ (∀ conn b, c.conns = some b → b.buf.length < b.cap →
        c.Put (some conn) eff
          = (.ok (), ⟨some { b with buf := b.buf ++ [conn] }⟩, eff)) := by
  refine ⟨rfl, ?_, ?_, ?_⟩
  · intro conn hnone
    simp [ChannelPool.Put, ChannelPool.put, hnone]
  · intro conn b hsome hfull
    simp [ChannelPool.Put, ChannelPool.put, hsome, hfull]
  · intro conn b hsome hroom
    simp [ChannelPool.Put, ChannelPool.put, hsome, hroom]

/-- Witness for C2: the four put outcomes at concrete states. -/
theorem C2_witness :
    (ChannelPool.Put ⟨some ⟨1, []⟩⟩ none Effects.init
      = (.error .nilConnection, ⟨some ⟨1, []⟩⟩, Effects.init))
    ∧ (ChannelPool.Put ⟨none⟩ (some ⟨4⟩) Effects.init
      = (.error .poolClosed, ⟨none⟩, { calls := 0, closedConns := [⟨4⟩] }))
    ∧ (ChannelPool.Put ⟨some ⟨1, [⟨9⟩]⟩⟩ (some ⟨4⟩) Effects.init
      = (.error .poolFull, ⟨some ⟨1, [⟨9⟩]⟩⟩, { calls := 0, closedConns := [⟨4⟩] }))
    ∧ (ChannelPool.Put ⟨some ⟨1, []⟩⟩ (some ⟨4⟩) Effects.init
      = (.ok (), ⟨some ⟨1, [⟨4⟩]⟩⟩, Effects.init)) := by
  refine ⟨(C2_put_semantics ⟨some ⟨1, []⟩⟩ Effects.init).1,
    (C2_put_semantics ⟨none⟩ Effects.init).2.1 ⟨4⟩ rfl,
    (C2_put_semantics ⟨some ⟨1, [⟨9⟩]⟩⟩ Effects.init).2.2.1 ⟨4⟩ ⟨1, [⟨9⟩]⟩ rfl (by decide),
    (C2_put_semantics ⟨some ⟨1, []⟩⟩ Effects.init).2.2.2 ⟨4⟩ ⟨1, []⟩ rfl (by decide)⟩

/-- Counterexample to claim C3 as stated: after `Close`, a `put` of a nil
connection fails with NilConnection, not with PoolClosed — the nil check
comes first in `put`, regardless of pool state. -/
theorem C3_counterexample :
    ((ChannelPool.Close ⟨some ⟨1, []⟩⟩ Effects.init).1.put none Effects.init).1
      = .error .nilConnection
    ∧ PoolError.nilConnection ≠ PoolError.poolClosed := by
  exact ⟨rfl, by decide⟩

/-- Claim C3 (amended): after `Close`, every `Get` fails with PoolClosed
and every `put` of a non-nil connection fails with PoolClosed, while
`put nil` still fails with NilConnection; `Len` reports 0; and a further
`Close` is a no-op returning the very same pool state and effects. -/
theorem C3_after_close (c : ChannelPool) (eff eff₁ : Effects) (factory : Factory) :
    (((c.Close eff).1.Get factory eff₁).1 = .error .poolClosed)
    ∧ (∀ conn, ((c.Close eff).1.put (some conn) eff₁).1 = .error .poolClosed)
    ∧ (((c.Close eff).1.put none eff₁).1 = .error .nilConnection)
    ∧ ((c.Close eff).1.Len = 0)
    ∧ ((c.Close eff).1.Close eff₁ = ((c.Close eff).1, eff₁)) := by
  have hclosed : (c.Close eff).1 = ⟨none⟩ := by
    rcases hc : c.conns with _ | b <;> simp [ChannelPool.Close, hc]
  rw [hclosed]
  refine ⟨rfl, fun conn => rfl, rfl, rfl, rfl⟩

/-- Counterexample to claim C4 as stated: the channel.go variant of the
constructor rejects the valid pair (initialCap, maxCap) = (0, 1) with
InvalidCapacity instead of succeeding, because its validation reads
`initialCap <= 0` rather than `initialCap < 0`. -/
theorem C4_counterexample :
    NewChannelPoolStrict 0 1 okFactory Effects.init
      = (.error .invalidCapacity, Effects.init) := by
  rfl

/-- Fill with an always-succeeding factory: n more factory calls, n more
connections appended to the buffer, nothing closed. -/
theorem fillPool_ok (factory : Factory)
    (hfac : ∀ n, ∃ conn, factory n = .ok conn) :
    ∀ (n capN : Nat) (buf : List Conn) (eff : Effects),
      ∃ buf₂, fillPool factory n ⟨some ⟨capN, buf⟩⟩ eff
          = (.ok ⟨some ⟨capN, buf₂⟩⟩, { eff with calls := eff.calls + n })
        ∧ buf₂.length = buf.length + n := by
  intro n
  induction n with
  | zero => intro capN buf eff; exact ⟨buf, rfl, rfl⟩
  | succ n ih =>
      intro capN buf eff
      obtain ⟨conn, hconn⟩ := hfac eff.calls
      obtain ⟨buf₂, heq, hlen⟩ :=
        ih capN (buf ++ [conn]) { eff with calls := eff.calls + 1 }
      refine ⟨buf₂, ?_, by simp [hlen]; omega⟩
      simp only [fillPool, hconn, heq]
      have : eff.calls + 1 + n = eff.calls + (n + 1) := by omega
      simp [this]

/-- Claim C4 (amended): with an always-succeeding factory and
0 ≤ initialCap ≤ maxCap, 1 ≤ maxCap, the evolved `NewChannelPool`
(validation `initialCap < 0`) succeeds, invokes the factory exactly
initialCap times, and yields `Len() = initialCap`; the channel.go
variant behaves identically for 1 ≤ initialCap but rejects
initialCap = 0 with InvalidCapacity without invoking the factory. -/
theorem C4_construction (i m : Int) (factory : Factory)
    (hi : 0 ≤ i) (him : i ≤ m) (hm : 1 ≤ m)
    (hfac : ∀ n, ∃ conn, factory n = .ok conn) :
    (∃ c, NewChannelPool i m factory Effects.init
        = (.ok c, { calls := i.toNat, closedConns := [] })
      ∧ c.Len = i.toNat)
    ∧ (1 ≤ i → NewChannelPoolStrict i m factory Effects.init
        = NewChannelPool i m factory Effects.init)
    ∧ (i = 0 → NewChannelPoolStrict i m factory Effects.init
        = (.error .invalidCapacity, Effects.init)) := by
  have hvalid : ¬ (i < 0 ∨ m ≤ 0 ∨ i > m) := by omega
  refine ⟨?_, ?_, ?_⟩
  · obtain ⟨buf₂, heq, hlen⟩ := fillPool_ok factory hfac i.toNat m.toNat [] Effects.init
    refine ⟨⟨some ⟨m.toNat, buf₂⟩⟩, ?_, ?_⟩
    · rw [NewChannelPool, if_neg hvalid, heq]
      simp [Effects.init]
    · simp [ChannelPool.Len, ChannelPool.getConns, hlen]
  · intro hone
    have hstrict : ¬ (i ≤ 0 ∨ m ≤ 0 ∨ i > m) := by omega
    rw [NewChannelPoolStrict, if_neg hstrict, NewChannelPool, if_neg hvalid]
  · intro hzero
    have hstrict : i ≤ 0 ∨ m ≤ 0 ∨ i > m := by omega
    rw [NewChannelPoolStrict, if_pos hstrict]

/-- Witness for C4 (amended): (initialCap, maxCap) = (0, 2) with the
always-ok factory — the evolved constructor returns an empty open pool
with no factory calls; the strict variant rejects it. -/
theorem C4_witness :
    (∃ c, NewChannelPool 0 2 okFactory Effects.init
        = (.ok c, { calls := 0, closedConns := [] })
      ∧ c.Len = 0)
    ∧ NewChannelPoolStrict 0 2 okFactory Effects.init
        = (.error .invalidCapacity, Effects.init) := by
  have h := C4_construction 0 2 okFactory (by decide) (by decide) (by decide)
    (fun n => ⟨⟨n⟩, rfl⟩)
  exact ⟨h.1, h.2.2 rfl⟩

/-- Fill whose (d+1)-st remaining factory call fails: the loop closes the
pool, so every connection already in the buffer — the initial contents
plus the d connections just created — is closed, and the constructor
error wraps the factory error. -/
theorem fillPool_fail (factory : Factory) (g : Nat → Conn) (e : FErr) :
    ∀ (d r capN : Nat) (buf : List Conn) (eff : Effects),
      (∀ j, j < d → factory (eff.calls + j) = .ok (g (eff.calls + j))) →
      factory (eff.calls + d) = .error e →
      fillPool factory (d + 1 + r) ⟨some ⟨capN, buf⟩⟩ eff
        = (.error (.fillFailed e),
           { calls := eff.calls + d + 1,
             closedConns := eff.closedConns ++ buf
               ++ (List.range' eff.calls d).map g }) := by
  intro d
  induction d with
  | zero =>
      intro r capN buf eff hok herr
      have hn : 0 + 1 + r = r + 1 := by omega
      rw [hn]
      have h0 : factory eff.calls = .error e := by simpa using herr
      simp [fillPool, h0, ChannelPool.Close]
  | succ d ih =>
      intro r capN buf eff hok herr
      have hn : d + 1 + 1 + r = d + 1 + r + 1 := by omega
      rw [hn]
      have h0 : factory eff.calls = .ok (g eff.calls) := by
        simpa using hok 0 (by omega)
      have hok₂ : ∀ j, j < d →
          factory ({ eff with calls := eff.calls + 1 }.calls + j)
            = .ok (g ({ eff with calls := eff.calls + 1 }.calls + j)) := by
        intro j hj
        have := hok (j + 1) (by omega)
        have harith : eff.calls + (j + 1) = eff.calls + 1 + j := by omega
        simpa [harith] using this
      have herr₂ : factory ({ eff with calls := eff.calls + 1 }.calls + d) = .error e := by
        have harith : eff.calls + (d + 1) = eff.calls + 1 + d := by omega
        simpa [harith] using herr
      have hih := ih r capN (buf ++ [g eff.calls])
        { eff with calls := eff.calls + 1 } hok₂ herr₂
      simp only [fillPool, h0]
      rw [hih]
      have hcalls : eff.calls + 1 + d + 1 = eff.calls + (d + 1) + 1 := by omega
      have hrange : List.range' eff.calls (d + 1) = eff.calls :: List.range' (eff.calls + 1) d :=
        List.range'_succ eff.calls d 1
      simp [hcalls, hrange]

/-- Claim C6: if the k-th (0-based) eager factory call fails while
filling, the constructor closes the k connections acquired so far,
returns the FactoryFillFailed error wrapping the factory's error, and no
pool value is produced. -/
theorem C6_fill_failure (i m : Int) (k : Nat) (e : FErr) (g : Nat → Conn)
    (factory : Factory)
    (hok : ∀ j, j < k → factory j = .ok (g j))
    (herr : factory k = .error e)
    (hk : (k : Int) < i) (him : i ≤ m) :
    NewChannelPool i m factory Effects.init
      = (.error (.fillFailed e),
         { calls := k + 1, closedConns := (List.range' 0 k).map g }) := by
  have hvalid : ¬ (i < 0 ∨ m ≤ 0 ∨ i > m) := by omega
  rw [NewChannelPool, if_neg hvalid]
  obtain ⟨r, hr⟩ : ∃ r, i.toNat = k + 1 + r := ⟨i.toNat - (k + 1), by omega⟩
  rw [hr]
  have h := fillPool_fail factory g e k r m.toNat [] Effects.init
    (by intro j hj; simpa [Effects.init] using hok j hj)
    (by simpa [Effects.init] using herr)
  simpa [Effects.init] using h

/-- Witness for C6: a factory succeeding once then failing with error 9,
initialCap 3, maxCap 5: the single created connection is closed, two
factory calls were made, and the result is the wrapped fill error. -/
theorem C6_witness :
    NewChannelPool 3 5 (fun n => if n < 1 then .ok ⟨n⟩ else .error 9) Effects.init
      = (.error (.fillFailed 9), { calls := 2, closedConns := [⟨0⟩] }) := by
  have h := C6_fill_failure 3 5 1 9 (fun j => ⟨j⟩)
    (fun n => if n < 1 then .ok ⟨n⟩ else .error 9)
    (by
      intro j hj
      have hj0 : j = 0 := by omega
      subst hj0
      rfl)
    rfl (by decide) (by decide)
  simpa using h

/-- Counterexample to claim C7 as stated: a wrapper keeps no record of
having been closed, and no AlreadyClosed error exists in the code.  On a
pool of capacity 2, the first `Close` of the wrapper around connection 1
returns it to the buffer; running `Close` again from the resulting state
reports no error at all and inserts the same raw connection a second
time. -/
theorem C7_counterexample :
    ((wrapConn ⟨1⟩).Close ⟨some ⟨2, []⟩⟩ Effects.init).2.1 = ⟨some ⟨2, [⟨1⟩]⟩⟩
    ∧ ((wrapConn ⟨1⟩).Close ⟨some ⟨2, [⟨1⟩]⟩⟩ Effects.init).1 = .ok ()
    ∧ ((wrapConn ⟨1⟩).Close ⟨some ⟨2, [⟨1⟩]⟩⟩ Effects.init).2.1
      = ⟨some ⟨2, [⟨1⟩, ⟨1⟩]⟩⟩ := by
  refine ⟨rfl, rfl, rfl⟩

/-- Claim C7 (amended): `PoolConn.Close` is unguarded — the wrapper holds
no closed flag and the code defines no AlreadyClosed error.  A second
`Close` re-runs the same routing: on an open pool with room for two more
connections, both the first and the second close succeed, and the raw
connection ends up in the idle buffer twice. -/
theorem C7_double_close (conn : Conn) (capN : Nat) (buf : List Conn)
    (eff : Effects) (hroom : buf.length + 2 ≤ capN) :
    (wrapConn conn).Close ⟨some ⟨capN, buf⟩⟩ eff
      = (.ok (), ⟨some ⟨capN, buf ++ [conn]⟩⟩, eff)
    ∧ (wrapConn conn).Close ⟨some ⟨capN, buf ++ [conn]⟩⟩ eff
      = (.ok (), ⟨some ⟨capN, buf ++ [conn] ++ [conn]⟩⟩, eff) := by
  have h1 : buf.length < capN := by omega
  have h2 : buf.length + 1 < capN := by omega
  constructor
  · simp [PoolConn.Close, wrapConn, ChannelPool.put, h1]
  · simp [PoolConn.Close, wrapConn, ChannelPool.put, h2]

/-- Witness for C7 (amended): connection 1 against an empty pool of
capacity 2. -/
theorem C7_witness :
    (wrapConn ⟨1⟩).Close ⟨some ⟨2, []⟩⟩ Effects.init
      = (.ok (), ⟨some ⟨2, [⟨1⟩]⟩⟩, Effects.init)
    ∧ (wrapConn ⟨1⟩).Close ⟨some ⟨2, [⟨1⟩]⟩⟩ Effects.init
      = (.ok (), ⟨some ⟨2, [⟨1⟩, ⟨1⟩]⟩⟩, Effects.init) := by
  have h := C7_double_close ⟨1⟩ 2 [] Effects.init (by decide)
  simpa using h

/-- Counterexample to claim C8 as stated: a reachable open pool with an
empty idle buffer (capacity 1) has `Len() = 0`; `Get` succeeds through
the factory, and closing the returned wrapper inserts the fresh
connection, leaving `Len() = 1`, not the pre-`Get` value 0. -/
theorem C8_counterexample :
    ChannelPool.Len ⟨some ⟨1, []⟩⟩ = 0
    ∧ (ChannelPool.Get ⟨some ⟨1, []⟩⟩ okFactory Effects.init).1 = .ok (wrapConn ⟨0⟩)
    ∧ ChannelPool.Len
        (((wrapConn ⟨0⟩).Close
            (ChannelPool.Get ⟨some ⟨1, []⟩⟩ okFactory Effects.init).2.1
            (ChannelPool.Get ⟨some ⟨1, []⟩⟩ okFactory Effects.init).2.2).2.1) = 1 := by
  refine ⟨rfl, rfl, rfl⟩

/-- Claim C8 (amended): `Get` immediately followed by the wrapper's
`Close` (not marked unusable) restores `Len()` to its pre-`Get` value
whenever the idle buffer was non-empty before the `Get`; when it was
empty, the connection comes from the factory and the close inserts it,
so `Len()` ends at 1 instead of 0. -/
theorem C8_get_close_len (capN : Nat) (conn : Conn) (rest : List Conn)
    (factory : Factory) (eff : Effects) (hlen : rest.length + 1 ≤ capN) :
    (∀ w c' eff',
      ChannelPool.Get ⟨some ⟨capN, conn :: rest⟩⟩ factory eff = (.ok w, c', eff') →
      ChannelPool.Len (w.Close c' eff').2.1
        = ChannelPool.Len ⟨some ⟨capN, conn :: rest⟩⟩)
    ∧ (∀ w c' eff',
      ChannelPool.Get ⟨some ⟨capN, ([] : List Conn)⟩⟩ factory eff = (.ok w, c', eff') →
      ChannelPool.Len (w.Close c' eff').2.1 = 1) := by
  have hroom : rest.length < capN := by omega
  constructor
  · intro w c' eff' h
    simp [ChannelPool.Get, ChannelPool.getConns, Prod.ext_iff] at h
    obtain ⟨hw, hc, _⟩ := h
    rw [← hw, ← hc]
    simp [PoolConn.Close, wrapConn, ChannelPool.put, hroom,
      ChannelPool.Len, ChannelPool.getConns]
  · intro w c' eff' h
    rcases hfac : factory eff.calls with e | cNew
    · simp [ChannelPool.Get, ChannelPool.getConns, hfac] at h
    · simp [ChannelPool.Get, ChannelPool.getConns, hfac, Prod.ext_iff] at h
      obtain ⟨hw, hc, _⟩ := h
      rw [← hw, ← hc]
      have hcap : (0 : Nat) < capN := by omega
      simp [PoolConn.Close, wrapConn, ChannelPool.put, hcap,
        ChannelPool.Len, ChannelPool.getConns]

/-- Witness for C8 (amended): pool of capacity 1 holding connection 3 —
pop then close restores `Len()` to 1. -/
theorem C8_witness :
    ChannelPool.Len
        (((wrapConn ⟨3⟩).Close ⟨some ⟨1, []⟩⟩ Effects.init).2.1)
      = ChannelPool.Len ⟨some ⟨1, [⟨3⟩]⟩⟩ := by
  exact (C8_get_close_len 1 ⟨3⟩ [] okFactory Effects.init (by decide)).1
    (wrapConn ⟨3⟩) ⟨some ⟨1, []⟩⟩ Effects.init rfl

/-- Successful fill preserves the channel and its capacity: only the
buffer contents change. -/
theorem fillPool_cap (factory : Factory) :
    ∀ (n capN : Nat) (buf : List Conn) (eff : Effects) (c : ChannelPool)
      (eff₂ : Effects),
      fillPool factory n ⟨some ⟨capN, buf⟩⟩ eff = (.ok c, eff₂) →
      ∃ buf₂, c = ⟨some ⟨capN, buf₂⟩⟩ := by
  intro n
  induction n with
  | zero =>
      intro capN buf eff c eff₂ h
      simp [fillPool, Prod.ext_iff] at h
      exact ⟨buf, h.1.symm⟩
  | succ n ih =>
      intro capN buf eff c eff₂ h
      rcases hfac : factory eff.calls with e | conn
      · simp [fillPool, hfac] at h
      · simp only [fillPool, hfac] at h
        exact ih capN (buf ++ [conn]) { eff with calls := eff.calls + 1 } c eff₂ h

/-- Claim C10: `Close` nils the stored channel, and Go's `cap` of a nil
channel is 0, so the maximum-capacity accessor reports 0 after `Close`
even though the capacity fixed at construction was positive: any pool the
constructor returns has `Cap() = maxCap > 0` before close and
`Cap() = 0` after. -/
theorem C10_cap_after_close (c : ChannelPool) (eff : Effects) (i m : Int)
    (factory : Factory) :
    ChannelPool.Cap ((c.Close eff).1) = 0
    ∧ ∀ c₀ eff₂, NewChannelPool i m factory Effects.init = (.ok c₀, eff₂) →
        c₀.Cap = m.toNat ∧ 0 < c₀.Cap
        ∧ ChannelPool.Cap ((c₀.Close eff).1) = 0 := by
  constructor
  · rcases hc : c.conns with _ | b <;>
      simp [ChannelPool.Close, hc, ChannelPool.Cap, ChannelPool.getConns]
  · intro c₀ eff₂ h
    rw [NewChannelPool] at h
    by_cases hvalid : i < 0 ∨ m ≤ 0 ∨ i > m
    · rw [if_pos hvalid] at h
      simp at h
    · rw [if_neg hvalid] at h
      obtain ⟨buf₂, hshape⟩ :=
        fillPool_cap factory i.toNat m.toNat [] Effects.init c₀ eff₂ h
      subst hshape
      have hm : 0 < m.toNat := by omega
      refine ⟨rfl, hm, ?_⟩
      simp [ChannelPool.Close, ChannelPool.Cap, ChannelPool.getConns]

/-- Witness for C10: the pool built by the constructor with maxCap 3 has
`Cap() = 3`; after `Close` it reports 0. -/
theorem C10_witness :
    ChannelPool.Cap ((ChannelPool.Close ⟨some ⟨3, [⟨0⟩]⟩⟩ Effects.init).1) = 0
    ∧ ChannelPool.Cap ⟨some ⟨3, [⟨0⟩]⟩⟩ = 3 := by
  have h := (C10_cap_after_close ⟨some ⟨3, [⟨0⟩]⟩⟩ Effects.init 1 3 okFactory).2
    ⟨some ⟨3, [⟨0⟩]⟩⟩ { calls := 1, closedConns := [] } rfl
  exact ⟨h.2.2, h.1⟩

/-- Modelled from the spec: the admission limiter and the
`maxActive`-aware pool are described in the spec but absent from src/
(only `tryClose` callers appear there).  `maxActive = 0` disables the
limiter; `active` counts admitted connections (idle plus checked out),
which `LenActive` reports. -/
structure LimiterPool where
  pool : ChannelPool
  maxActive : Nat
  active : Nat
deriving DecidableEq, Repr

/-- `Len` of the limiter-extended pool: the idle count. -/
def LimiterPool.Len (lp : LimiterPool) : Nat :=
  lp.pool.Len

/-- Modelled from the spec: `LenActive` reports the slots currently
admitted. -/
def LimiterPool.LenActive (lp : LimiterPool) : Nat :=
  lp.active

/-- Modelled from the spec: `tryClose` closes the raw connection (no-op
on nil) and, when the limiter is enabled, releases one admission slot;
it never fails. -/
def LimiterPool.tryClose (lp : LimiterPool) (conn : Option Conn) (eff : Effects) :
    LimiterPool × Effects :=
  let eff₂ := match conn with
    | none => eff
    | some conn => { eff with closedConns := eff.closedConns ++ [conn] }
  (if 0 < lp.maxActive then { lp with active := lp.active - 1 } else lp, eff₂)

/-- Modelled from the spec: `put` for the limiter-extended pool — reject
nil with NilConnection; on a closed pool close the connection via
`tryClose` and fail with PoolClosed; otherwise insert non-blockingly,
and when the buffer is full close the connection via `tryClose` and fail
with PoolFull. -/
def LimiterPool.put (lp : LimiterPool) (conn : Option Conn) (eff : Effects) :
    Except PoolError Unit × LimiterPool × Effects :=
  match conn with
  | none => (.error .nilConnection, lp, eff)
  | some conn =>
    match lp.pool.conns with
    | none =>
        let closedPair := lp.tryClose (some conn) eff
        (.error .poolClosed, closedPair.1, closedPair.2)
    | some b =>
        if b.buf.length < b.cap then
          (.ok (), { lp with pool := ⟨some { b with buf := b.buf ++ [conn] }⟩ }, eff)
        else
          let closedPair := lp.tryClose (some conn) eff
          (.error .poolFull, closedPair.1, closedPair.2)

/-- Modelled from the spec: the wrapper's close against the
limiter-extended pool — route to `tryClose` when unusable (discard),
otherwise to `put` (return). -/
def LimiterPool.closeWrapper (lp : LimiterPool) (p : PoolConn) (eff : Effects) :
    Except PoolError Unit × LimiterPool × Effects :=
  if p.unusable then
    let closedPair := lp.tryClose (some p.Conn) eff
    (.ok (), closedPair.1, closedPair.2)
  else lp.put (some p.Conn) eff

/-- Modelled from the spec: the eager-fill loop of the full constructor,
acquiring each connection through the admission+factory path (`tryOpen`
never blocks during fill because at most initialCap ≤ maxCap ≤ maxActive
slots are taken); a factory failure closes every connection acquired so
far, releasing the limiter slots. -/
def LimiterPool.fill (factory : Factory) : Nat → LimiterPool → Effects →
    Except PoolError LimiterPool × Effects
  | 0, lp, eff => (.ok lp, eff)
  | n + 1, lp, eff =>
      match factory eff.calls with
      | .ok conn =>
          let pool₂ : ChannelPool :=
            match lp.pool.conns with
            | some b => ⟨some { b with buf := b.buf ++ [conn] }⟩
            | none => lp.pool
          LimiterPool.fill factory n
            { lp with pool := pool₂,
                      active := if 0 < lp.maxActive then lp.active + 1 else lp.active }
            { eff with calls := eff.calls + 1 }
      | .error e =>
          let closedPair := lp.pool.Close { eff with calls := eff.calls + 1 }
          (.error (.fillFailed e), closedPair.2)

/-- Modelled from the spec: Construct(initialCap, maxCap, maxActive,
factory) validates initialCap ≥ 0, maxCap ≥ 1, initialCap ≤ maxCap, and
maxActive ≥ maxCap whenever maxActive > 0, failing with InvalidCapacity
otherwise; then it allocates the buffer and limiter and eagerly fills
initialCap connections. -/
def Construct (initialCap maxCap maxActive : Int) (factory : Factory)
    (eff : Effects) : Except PoolError LimiterPool × Effects :=
  if initialCap < 0 ∨ maxCap < 1 ∨ initialCap > maxCap
      ∨ (0 < maxActive ∧ maxActive < maxCap) then
    (.error .invalidCapacity, eff)
  else
    LimiterPool.fill factory initialCap.toNat
      { pool := ⟨some { cap := maxCap.toNat, buf := [] }⟩,
        maxActive := maxActive.toNat, active := 0 } eff

/-- Claim C5: every argument triple violating the capacity constraints —
initialCap > maxCap, or maxCap ≤ 0, or maxActive > 0 with
maxActive < maxCap — makes construction fail with InvalidCapacity
without a single factory invocation; for the constraints present in
src/, the same holds of both `NewChannelPool` variants. -/
theorem C5_invalid_capacity (i m a : Int) (factory : Factory) (eff : Effects)
    (h : i > m ∨ m ≤ 0 ∨ (0 < a ∧ a < m)) :
    Construct i m a factory eff = (.error .invalidCapacity, eff)
    ∧ (i > m ∨ m ≤ 0 →
        NewChannelPool i m factory eff = (.error .invalidCapacity, eff)
        ∧ NewChannelPoolStrict i m factory eff = (.error .invalidCapacity, eff)) := by
  constructor
  · have hbad : i < 0 ∨ m < 1 ∨ i > m ∨ (0 < a ∧ a < m) := by omega
    rw [Construct, if_pos hbad]
  · intro hsrc
    have hbad : i < 0 ∨ m ≤ 0 ∨ i > m := by omega
    have hbadStrict : i ≤ 0 ∨ m ≤ 0 ∨ i > m := by omega
    exact ⟨by rw [NewChannelPool, if_pos hbad],
      by rw [NewChannelPoolStrict, if_pos hbadStrict]⟩

/-- Witness for C5: the three violating triples (3,2,0), (1,0,0) and
(1,3,2) all fail with InvalidCapacity and leave the effect log (and so
the factory call count) untouched. -/
theorem C5_witness :
    Construct 3 2 0 okFactory Effects.init = (.error .invalidCapacity, Effects.init)
    ∧ Construct 1 0 0 okFactory Effects.init = (.error .invalidCapacity, Effects.init)
    ∧ Construct 1 3 2 okFactory Effects.init = (.error .invalidCapacity, Effects.init)
    ∧ NewChannelPool 3 2 okFactory Effects.init = (.error .invalidCapacity, Effects.init) := by
  refine ⟨(C5_invalid_capacity 3 2 0 okFactory Effects.init (by omega)).1,
    (C5_invalid_capacity 1 0 0 okFactory Effects.init (by omega)).1,
    (C5_invalid_capacity 1 3 2 okFactory Effects.init (by omega)).1,
    ((C5_invalid_capacity 3 2 0 okFactory Effects.init (by omega)).2 (by omega)).1⟩

/-- Counterexample to claim C9 as stated: with the idle buffer already
full at close time (capacity 1 holding connection 2, connection 1
checked out, limiter of size 2 with both slots admitted), the unusable
and the non-unusable close leave the same `Len()` = 1 — the non-unusable
put is rejected with PoolFull and discards the connection too, so the
unusable run's `Len()` is not strictly less. -/
theorem C9_counterexample :
    LimiterPool.Len
        (LimiterPool.closeWrapper ⟨⟨some ⟨1, [⟨2⟩]⟩⟩, 2, 2⟩ ⟨⟨1⟩, true⟩ Effects.init).2.1 = 1
    ∧ LimiterPool.Len
        (LimiterPool.closeWrapper ⟨⟨some ⟨1, [⟨2⟩]⟩⟩, 2, 2⟩ ⟨⟨1⟩, false⟩ Effects.init).2.1 = 1 := by
  refine ⟨rfl, rfl⟩

/-- Claim C9 (amended): closing a checked-out wrapper marked unusable
discards the raw connection — it is closed, the idle buffer is
unchanged, and an admission slot is released — so `Len()` is strictly
less than in the identical non-unusable run whenever the idle buffer has
room at close time, and equal when the buffer is full (PoolFull also
discards); in both runs `LenActive` never rises above its pre-close
value. -/
theorem C9_unusable_discard (capN : Nat) (buf : List Conn) (a ma : Nat)
    (co : Conn) (eff : Effects) (hma : 0 < ma) :
    (LimiterPool.closeWrapper ⟨⟨some ⟨capN, buf⟩⟩, ma, a⟩ ⟨co, true⟩ eff
      = (.ok (), ⟨⟨some ⟨capN, buf⟩⟩, ma, a - 1⟩,
         { eff with closedConns := eff.closedConns ++ [co] }))
    ∧ (buf.length < capN →
        LimiterPool.Len
            (LimiterPool.closeWrapper ⟨⟨some ⟨capN, buf⟩⟩, ma, a⟩ ⟨co, true⟩ eff).2.1
          < LimiterPool.Len
            (LimiterPool.closeWrapper ⟨⟨some ⟨capN, buf⟩⟩, ma, a⟩ ⟨co, false⟩ eff).2.1)
    ∧ LimiterPool.LenActive
        (LimiterPool.closeWrapper ⟨⟨some ⟨capN, buf⟩⟩, ma, a⟩ ⟨co, true⟩ eff).2.1 ≤ a
    ∧ LimiterPool.LenActive
        (LimiterPool.closeWrapper ⟨⟨some ⟨capN, buf⟩⟩, ma, a⟩ ⟨co, false⟩ eff).2.1 ≤ a := by
  refine ⟨?_, ?_, ?_, ?_⟩
  · simp [LimiterPool.closeWrapper, LimiterPool.tryClose, hma]
  · intro hroom
    simp [LimiterPool.closeWrapper, LimiterPool.put, LimiterPool.tryClose,
      LimiterPool.Len, ChannelPool.Len, ChannelPool.getConns, hma, hroom]
  · simp [LimiterPool.closeWrapper, LimiterPool.tryClose,
      LimiterPool.LenActive, hma]
  · by_cases hroom : buf.length < capN <;>
      simp [LimiterPool.closeWrapper, LimiterPool.put, LimiterPool.tryClose,
        LimiterPool.LenActive, hma, hroom]

/-- Witness for C9 (amended): capacity 2, buffer holding connection 2,
connection 1 checked out, limiter of size 2 with both slots admitted:
the unusable close discards connection 1 and releases a slot, leaving
`Len()` = 1 against 2 for the non-unusable run, and neither run raises
`LenActive` above 2. -/
theorem C9_witness :
    (LimiterPool.closeWrapper ⟨⟨some ⟨2, [⟨2⟩]⟩⟩, 2, 2⟩ ⟨⟨1⟩, true⟩ Effects.init
      = (.ok (), ⟨⟨some ⟨2, [⟨2⟩]⟩⟩, 2, 1⟩, { calls := 0, closedConns := [⟨1⟩] }))
    ∧ LimiterPool.Len
        (LimiterPool.closeWrapper ⟨⟨some ⟨2, [⟨2⟩]⟩⟩, 2, 2⟩ ⟨⟨1⟩, true⟩ Effects.init).2.1
      < LimiterPool.Len
        (LimiterPool.closeWrapper ⟨⟨some ⟨2, [⟨2⟩]⟩⟩, 2, 2⟩ ⟨⟨1⟩, false⟩ Effects.init).2.1
    ∧ LimiterPool.LenActive
        (LimiterPool.closeWrapper ⟨⟨some ⟨2, [⟨2⟩]⟩⟩, 2, 2⟩ ⟨⟨1⟩, false⟩ Effects.init).2.1
      ≤ 2 := by
  have h := C9_unusable_discard 2 [⟨2⟩] 2 2 ⟨1⟩ Effects.init (by decide)
  exact ⟨h.1, h.2.1 (by decide), h.2.2.2⟩

end PoolSpec
